import Mathlib

/-!
# Verification of the pdf-extractor heading-inference pipeline

Shallow embedding of the three pipeline iterations in `src/app/main1.py`,
`src/app/main2.py` and `src/app/main3.py`.  The extraction boundary
(`extract_text_elements`, which consumes a PyMuPDF document) is out of scope:
every function below consumes a `List TextElement`, the exact data produced by
that boundary.  Font sizes and coordinates are embedded as rationals; Python
strings are Lean `String`s, manipulated through their character lists so that
all definitions evaluate on concrete inputs.

Conventions:
* names keep the Python names, suffixed `1` / `2` / `3` for the source file;
* Python `round(x, n)` is embedded with half rounded up instead of Python's
  round-half-to-even; no statement below touches a half-way case;
* a Python function that can raise on some input is embedded with an `Option`
  result (`none` = the exception path);
* rational arithmetic is written with the `q`-operations defined below, which
  are proved equal to the field operations of `ℚ`; they are used because the
  library's `Rat.add`/`Rat.sub`/`Rat.mul`/`Rat.inv` are `@[irreducible]`,
  which would block kernel evaluation of concrete documents.
-/

/-! ## Kernel-reducible rational arithmetic -/

/-- The rational `n / d` (`Rat.divInt`, which the kernel evaluates). -/
def qmk (n d : ℤ) : ℚ := Rat.divInt n d

/-- Addition on `ℚ` (equal to `a + b`, see `qadd_eq`). -/
def qadd (a b : ℚ) : ℚ := Rat.divInt (a.num * b.den + b.num * a.den) (a.den * b.den)

/-- Subtraction on `ℚ` (equal to `a - b`, see `qsub_eq`). -/
def qsub (a b : ℚ) : ℚ := Rat.divInt (a.num * b.den - b.num * a.den) (a.den * b.den)

/-- Multiplication on `ℚ` (equal to `a * b`, see `qmul_eq`). -/
def qmul (a b : ℚ) : ℚ := Rat.divInt (a.num * b.num) (a.den * b.den)

/-- Division on `ℚ` (equal to `a / b`, see `qdiv_eq`). -/
def qdiv (a b : ℚ) : ℚ := Rat.divInt (a.num * b.den) (a.den * b.num)

/-- Absolute value on `ℚ` (equal to `|a|`, see `qabs_eq`). -/
def qabs (a : ℚ) : ℚ := Rat.divInt (a.num.natAbs : ℤ) (a.den : ℤ)

/-- Sum of a list of rationals (equal to `l.sum`, see `qsum_eq`). -/
def qsum (l : List ℚ) : ℚ := l.foldr qadd 0

/-- `ℕ` into `ℚ`. -/
def nq (n : ℕ) : ℚ := n

/-- Heading level emitted in the outline (the Python code uses the strings
"H1" / "H2" / "H3"). -/
inductive Level where
  | H1
  | H2
  | H3
deriving DecidableEq, Repr

/-- `prev_level_order` / `prev_order`: the rank of a level, 1 for H1 through
3 for H3 (mirrors the dicts in `assign_headings` of main1/main2). -/
def rank : Level → ℕ
  | .H1 => 1
  | .H2 => 2
  | .H3 => 3

/-- One outline entry: `{"level": ..., "text": ..., "page": ...}`. -/
structure Entry where
  level : Level
  text : String
  page : ℕ
deriving DecidableEq, Repr

/-- The result of processing one document: `{"title": ..., "outline": ...}`. -/
structure DocResult where
  title : String
  outline : List Entry
deriving DecidableEq, Repr

/-- `TextElement`: line-level text element with style and position.  Superset
of the fields of the three Python variants (main1/main3 do not use `w`, `h`,
`block_no`, `line_no`; the functions taken from those files ignore them). -/
structure TextElement where
  text : String
  font_size : ℚ
  font_name : String
  is_bold : Bool
  is_italic : Bool
  x0 : ℚ
  y0 : ℚ
  w : ℚ
  h : ℚ
  page_num : ℕ
  block_no : ℕ
  line_no : ℕ
deriving DecidableEq, Repr

/-! ## Generic helpers (Python built-ins) -/

/-- Python `str.strip()` on a character list. -/
def trimL (l : List Char) : List Char :=
  ((l.dropWhile Char.isWhitespace).reverse.dropWhile Char.isWhitespace).reverse

/-- Python `str.strip()`. -/
def stripS (s : String) : String := ⟨trimL s.data⟩

/-- Python `str.rstrip()`. -/
def rstripS (s : String) : String := ⟨(s.data.reverse.dropWhile Char.isWhitespace).reverse⟩

/-- Python `str.lower()` (ASCII, which covers every string the code tests). -/
def lowerS (s : String) : String := ⟨s.data.map Char.toLower⟩

/-- `text.endswith('.')`. -/
def endsDot (s : String) : Bool :=
  match s.data.getLast? with
  | some c => c = '.'
  | none => false

/-- Does `s` start with `pat` (character lists)? -/
def startsList : List Char → List Char → Bool
  | _, [] => true
  | [], _ :: _ => false
  | a :: s, b :: p => a = b && startsList s p

/-- Does `s` contain `pat` as a contiguous substring (Python `pat in s`)? -/
def hasSubList : List Char → List Char → Bool
  | [], p => p.isEmpty
  | a :: s, p => startsList (a :: s) p || hasSubList s p

/-- Python `pat in s` on strings. -/
def hasSub (s pat : String) : Bool := hasSubList s.data pat.data

/-- Python `str.split()` on a character list: maximal non-whitespace runs
(`cur` accumulates the current word, reversed). -/
def wordsGo : List Char → List Char → List (List Char)
  | [], cur => if cur.isEmpty then [] else [cur.reverse]
  | c :: rest, cur =>
      if c.isWhitespace then
        if cur.isEmpty then wordsGo rest [] else cur.reverse :: wordsGo rest []
      else wordsGo rest (c :: cur)

/-- `len(text.split())`. -/
def wordCount (s : String) : ℕ := (wordsGo s.data []).length

/-- Python `max(xs)` over rationals, with the 0 default the call sites use for
an empty list (every bare `max(...)` call is guarded by a non-emptiness
check in the source). -/
def maxD : List ℚ → ℚ
  | [] => 0
  | x :: xs => xs.foldl max x

/-- Python `max(xs)` over naturals (same convention as `maxD`). -/
def maxDNat : List ℕ → ℕ
  | [] => 0
  | x :: xs => xs.foldl max x

/-- `statistics.mean` (only ever applied to non-empty lists). -/
def mean (l : List ℚ) : ℚ := qdiv (qsum l) (nq l.length)

/-- Python `round(q, n)` as a rational: round `q·10ⁿ` to the nearest integer
(half rounded up, see the header note) and scale back. -/
def roundTo (n : ℕ) (q : ℚ) : ℚ :=
  qmk (Rat.floor (qadd (qmul q (nq (10 ^ n))) (qmk 1 2))) ((10 ^ n : ℕ) : ℤ)

/-- `sorted(l, reverse=True)`. -/
def sortDesc (l : List ℚ) : List ℚ := l.insertionSort (· ≥ ·)

/-- `sorted(set(l), reverse=True)`. -/
def dedupSortDesc (l : List ℚ) : List ℚ := sortDesc l.dedup

/-- Python `min(xs, key=f)` (first minimum wins), `none` on an empty list. -/
def argminFirst (f : ℚ → ℚ) : List ℚ → Option ℚ
  | [] => none
  | a :: rest => some (rest.foldl (fun best s => if f s < f best then s else best) a)

/-- Reading-order sort key used by every `assign_headings`:
`key=lambda x: (x.page_num, x.y0, x.x0)`. -/
def elReadLE (a b : TextElement) : Prop :=
  a.page_num < b.page_num ∨
    (a.page_num = b.page_num ∧ (a.y0 < b.y0 ∨ (a.y0 = b.y0 ∧ a.x0 ≤ b.x0)))

instance : DecidableRel elReadLE := fun a b => by unfold elReadLE; infer_instance

/-- `sorted(text_elements, key=lambda x: (x.page_num, x.y0, x.x0))`. -/
def sortEls (els : List TextElement) : List TextElement := els.insertionSort elReadLE

/-- Splits the leading run of decimal digits (the regex `\d+`, greedy). -/
def takeDigits : List Char → List Char × List Char
  | [] => ([], [])
  | c :: rest =>
      if c.isDigit then
        let p := takeDigits rest
        (c :: p.1, p.2)
      else ([], c :: rest)

/-! ## Numbering Analyzer (`find_numbering_level`, three variants)

main1: `re.match(r'^(\d+(\.\d+){0,2})[ \t\-:]*', text)` — the trailing
separator class is starred, so it always matches; the regex succeeds exactly
when the trimmed text starts with a digit.  main2 uses `[ \t\-:]+` (at least
one separator, and `.` is not in the class).  main3 tries the three patterns
`^(\d+)\.?\s+`, `^(\d+\.\d+)\.?\s+`, `^(\d+\.\d+\.\d+)\.?\s+` in order.
Each embedding below is the deterministic greedy parse; for these patterns
greedy parsing agrees with Python's backtracking regex engine because no
shorter choice of `\d+` or of the `(\.\d+)` repetitions can turn a failing
continuation into a successful one (the follow-sets are disjoint from the
repeated classes). -/

/-- Greedy parse of up to `k` repetitions of `\.\d+`; returns the number of
repetitions parsed and the rest of the input. -/
def dotGroups : ℕ → List Char → ℕ × List Char
  | 0, l => (0, l)
  | k + 1, l =>
      match l with
      | '.' :: rest =>
          let p := takeDigits rest
          if p.1.isEmpty then (0, l)
          else
            let q := dotGroups k p.2
            (q.1 + 1, q.2)
      | _ => (0, l)

/-- Number of repetitions of `\.\d+` with no cap (used to state the amended
C6 claim: the total count of leading dot-separated integer segments). -/
def dotGroupsAll : List Char → ℕ
  | '.' :: c :: rest =>
      if c.isDigit then
        dotGroupsAll (takeDigits (c :: rest)).2 + 1
      else 0
  | _ => 0
termination_by l => l.length
decreasing_by
  rename_i hdig
  have key : ∀ l : List Char, (takeDigits l).2.length ≤ l.length := by
    intro l
    induction l with
    | nil => simp [takeDigits]
    | cons a as ih =>
        by_cases ha : a.isDigit
        · simp [takeDigits, ha]; omega
        · simp [takeDigits, ha]
  have h := key rest
  simp only [takeDigits, hdig, if_true]
  simp only [List.length_cons]
  omega

/-- main1 `find_numbering_level` (lines 121–135). -/
def find_numbering_level1 (text : String) : Option ℕ :=
  let cs := trimL text.data
  let p := takeDigits cs
  if p.1.isEmpty then none
  else
    let g := (dotGroups 2 p.2).1
    let level := g + 1
    some (if 3 < level then 3 else level)

/-- Is the next character in the main2 separator class `[ \t\-:]`? -/
def sepHead2 : List Char → Bool
  | c :: _ => c = ' ' || c = '\t' || c = '-' || c = ':'
  | [] => false

/-- main2 `find_numbering_level` (lines 152–160): same numeric path but the
separator class is `+` (at least one) and does not contain `.`. -/
def find_numbering_level2 (text : String) : Option ℕ :=
  let cs := trimL text.data
  let p := takeDigits cs
  if p.1.isEmpty then none
  else
    let q := dotGroups 2 p.2
    if sepHead2 q.2 then
      let level := q.1 + 1
      some (if 3 < level then 3 else level)
    else none

/-- The suffix test `\.?\s+` of the main3 patterns: an optional period, then
at least one whitespace character. -/
def afterNum3 : List Char → Bool
  | '.' :: rest => sepWS rest
  | l => sepWS l
where
  sepWS : List Char → Bool
    | c :: _ => c.isWhitespace
    | [] => false

/-- main3 `find_numbering_level` (lines 178–197): the three patterns tried in
order. -/
def find_numbering_level3 (text : String) : Option ℕ :=
  let cs := trimL text.data
  let p1 := takeDigits cs
  if p1.1.isEmpty then none
  else if afterNum3 p1.2 then some 1
  else
    match p1.2 with
    | '.' :: r2 =>
        let p2 := takeDigits r2
        if p2.1.isEmpty then none
        else if afterNum3 p2.2 then some 2
        else
          match p2.2 with
          | '.' :: r4 =>
              let p3 := takeDigits r4
              if p3.1.isEmpty then none
              else if afterNum3 p3.2 then some 3
              else none
          | _ => none
    | _ => none

/-- The numbering override of main1/main3 (`num_level >= 3` maps to H3;
`None` and the impossible 0 leave the font-derived level unchanged). -/
def overrideGE3 (num : Option ℕ) (lv : Level) : Level :=
  match num with
  | some 1 => .H1
  | some 2 => .H2
  | some 0 => lv
  | some _ => .H3
  | none => lv

/-- The numbering override of main2 (`num_level == 3` maps to H3). -/
def overrideEQ3 (num : Option ℕ) (lv : Level) : Level :=
  match num with
  | some 1 => .H1
  | some 2 => .H2
  | some 3 => .H3
  | some _ => lv
  | none => lv

/-! ## Font Size Clusterer (`cluster_font_sizes`, three variants)

Greedy single-link clustering: repeatedly take the largest remaining size as
seed, absorb every size within the tolerance, represent the cluster by the
mean.  The source filters the cluster out of the full remaining list; since
the seed is its own head and the tolerance is non-negative at every call site
(0.5 / 0.5 / 0.3), that equals seeding with the head and filtering the tail. -/

/-- One pass of the `while sizes:` loop, fueled so that the recursion is
structural (the fuel only needs to dominate the list length; each pass
removes at least the seed). -/
def buildClustersGo (tol : ℚ) : ℕ → List ℚ → List (List ℚ)
  | _, [] => []
  | 0, _ :: _ => []
  | fuel + 1, base :: rest =>
      (base :: rest.filter (fun s => decide (qabs (qsub s base) ≤ tol))) ::
        buildClustersGo tol fuel (rest.filter (fun s => !decide (qabs (qsub s base) ≤ tol)))

/-- The cluster decomposition (each inner list is one cluster, seed first). -/
def buildClusters (tol : ℚ) (l : List ℚ) : List (List ℚ) :=
  buildClustersGo tol l.length l

/-- main1 `cluster_font_sizes` (lines 58–72): sizes rounded to 2 decimals,
tolerance 0.5, final `clusters.sort(reverse=True)`. -/
def cluster_font_sizes1 (els : List TextElement) : List ℚ :=
  let sizes := dedupSortDesc (els.map (fun el => roundTo 2 el.font_size))
  sortDesc ((buildClusters (qmk 1 2) sizes).map mean)

/-- main2 `cluster_font_sizes` (lines 64–76): like main1 but sizes with a
falsy (zero) `font_size` are skipped by the `if el.font_size` guard. -/
def cluster_font_sizes2 (els : List TextElement) : List ℚ :=
  let sizes :=
    dedupSortDesc (((els.filter (fun el => !decide (el.font_size = 0))).map
      (fun el => roundTo 2 el.font_size)))
  sortDesc ((buildClusters (qmk 1 2) sizes).map mean)

/-- main3 `cluster_font_sizes` (lines 58–72): sizes rounded to 1 decimal,
tolerance 0.3. -/
def cluster_font_sizes3 (els : List TextElement) : List ℚ :=
  let sizes := dedupSortDesc (els.map (fun el => roundTo 1 el.font_size))
  sortDesc ((buildClusters (qmk 3 10) sizes).map mean)

/-! ## main1: Header/Footer Filter, Title Detector, Heading Assigner -/

/-- Number of distinct pages carrying at least one element
(`len(set(el.page_num for el in text_elements))`). -/
def numPagesDistinct (els : List TextElement) : ℕ :=
  ((els.map (fun el => el.page_num)).dedup).length

/-- Occurrences of text `t` in the top margin band (`y0 < 50`), the counts of
main1's `top_freq = Counter(top_texts)`. -/
def topCount1 (els : List TextElement) (t : String) : ℕ :=
  (els.filter (fun el => decide (el.y0 < 50 ∧ el.text = t))).length

/-- Occurrences of text `t` in the bottom margin band (`y0 > 750`). -/
def bottomCount1 (els : List TextElement) (t : String) : ℕ :=
  (els.filter (fun el => decide (750 < el.y0 ∧ el.text = t))).length

/-- `t ∈ header_candidates`: more than 0.7·num_pages occurrences in the top
band. -/
def isHeaderCand1 (els : List TextElement) (t : String) : Prop :=
  qmul (qmk 7 10) (nq (numPagesDistinct els)) < nq (topCount1 els t)

/-- `t ∈ footer_candidates`. -/
def isFooterCand1 (els : List TextElement) (t : String) : Prop :=
  qmul (qmk 7 10) (nq (numPagesDistinct els)) < nq (bottomCount1 els t)

instance (els : List TextElement) (t : String) : Decidable (isHeaderCand1 els t) := by
  unfold isHeaderCand1; infer_instance

instance (els : List TextElement) (t : String) : Decidable (isFooterCand1 els t) := by
  unfold isFooterCand1; infer_instance

/-- main1 `remove_header_footer` (lines 98–119): drop an element only when it
sits in a margin band and its text is a frequent margin text. -/
def remove_header_footer1 (els : List TextElement) : List TextElement :=
  els.filter (fun el =>
    decide (¬(el.y0 < 50 ∧ isHeaderCand1 els el.text) ∧
      ¬(750 < el.y0 ∧ isFooterCand1 els el.text)))

/-- main1 `detect_title` scoring (lines 90–93): `y0 + |x0 - 595/2| * 0.5`. -/
def score1 (el : TextElement) : ℚ := qadd el.y0 (qmul (qabs (qsub el.x0 (qmk 595 2))) (qmk 1 2))

/-- `candidates.sort(key=score)`. -/
def sortByScore1 (els : List TextElement) : List TextElement :=
  els.insertionSort (fun a b => score1 a ≤ score1 b)

/-- main1 `detect_title` (lines 74–96). -/
def detect_title1 (els : List TextElement) : String :=
  let fp := els.filter (fun el => decide (el.page_num = 1))
  match fp with
  | [] => ""
  | _ :: _ =>
      let mx := maxD (fp.map (fun el => el.font_size))
      let cands := fp.filter (fun el => decide (qabs (qsub el.font_size mx) < qmk 1 5))
      match (sortByScore1 cands).head? with
      | some el => el.text
      | none => ""

/-- The maximum font size among first-page elements, the value main1's Title
Detector selects as the title's size (line 84); 0 when page 1 is empty. -/
def title_max_size1 (els : List TextElement) : ℚ :=
  maxD ((els.filter (fun el => decide (el.page_num = 1))).map (fun el => el.font_size))

/-- main1 `assign_headings`, heading sizes: clusters further than 0.3 from the
title size, sorted descending (lines 147–148). -/
def headingSizes1 (clusters : List ℚ) (tsize : ℚ) : List ℚ :=
  sortDesc (clusters.filter (fun fs => decide (qmk 3 10 < qabs (qsub fs tsize))))

/-- The dict `font_size_to_level` built from the first three heading sizes;
lookup mirrors Python dict semantics (a later insertion overrides an earlier
one with the same key). -/
def lookupLW (hfs : List ℚ) (s : ℚ) : Option Level :=
  if hfs.get? 2 = some s then some .H3
  else if hfs.get? 1 = some s then some .H2
  else if hfs.get? 0 = some s then some .H1
  else none

/-- Per-element decision of main1 `assign_headings` (lines 165–225).  The
source also tracks `last_heading_level`, but its structural check is a `pass`
(lines 199–205), so the state never influences any decision and the loop is a
`filterMap` over the sorted elements. -/
def proc1El (clusters hfs : List ℚ) (el : TextElement) : Option Entry :=
  if el.page_num = 1 then none
  else if el.text.length < 2 then none
  else
    match argminFirst (fun fs => qabs (qsub el.font_size fs)) clusters with
    | none => none
    | some c =>
        match lookupLW hfs c with
        | none => none
        | some lv0 =>
            let lv := overrideGE3 (find_numbering_level1 el.text) lv0
            if endsDot el.text then none
            else some ⟨lv, el.text, el.page_num⟩

/-- main1 `assign_headings` (lines 137–227). -/
def assign_headings1 (els : List TextElement) (clusters : List ℚ) (tsize : ℚ) :
    List Entry :=
  (sortEls els).filterMap (proc1El clusters (headingSizes1 clusters tsize))

/-- main1 `process_pdf_file` (lines 229–251), from the extracted elements on:
filter, title, clusters, headings with `title_font_size = max(font_clusters)
if font_clusters else 0`. -/
def process1 (els : List TextElement) : DocResult :=
  let f := remove_header_footer1 els
  let title := detect_title1 f
  let clusters := cluster_font_sizes1 f
  ⟨title, assign_headings1 f clusters (maxD clusters)⟩

/-! ## main2: Header/Footer Filter, Line Merger, Title Detector, Assigner -/

/-- Occurrences of text `t` among `y0 < 50` elements (main2 `headers`
defaultdict counts). -/
def topCount2 (els : List TextElement) (t : String) : ℕ :=
  (els.filter (fun el => decide (el.y0 < 50 ∧ el.text = t))).length

/-- Occurrences of text `t` among `y0 > 750` elements (main2 `footers`). -/
def bottomCount2 (els : List TextElement) (t : String) : ℕ :=
  (els.filter (fun el => decide (750 < el.y0 ∧ el.text = t))).length

/-- `t ∈ header_texts` of main2: more than `0.7 * num_pages` occurrences,
where `num_pages = max(el.page_num for el in text_elements)`. -/
def isHeaderText2 (els : List TextElement) (np : ℕ) (t : String) : Prop :=
  qmul (qmk 7 10) (nq np) < nq (topCount2 els t)

/-- `t ∈ footer_texts` of main2. -/
def isFooterText2 (els : List TextElement) (np : ℕ) (t : String) : Prop :=
  qmul (qmk 7 10) (nq np) < nq (bottomCount2 els t)

instance (els : List TextElement) (np : ℕ) (t : String) :
    Decidable (isHeaderText2 els np t) := by
  unfold isHeaderText2; infer_instance

instance (els : List TextElement) (np : ℕ) (t : String) :
    Decidable (isFooterText2 els np t) := by
  unfold isFooterText2; infer_instance

/-- main2 `remove_header_footer` (lines 78–96).  The first statement is
`num_pages = max(el.page_num for el in text_elements)`: on a document with
zero text elements Python's `max` raises `ValueError`, embedded as `none`.
(The `per_page` parameter of the source is unused and omitted.) -/
def remove_header_footer2 (els : List TextElement) : Option (List TextElement) :=
  match els with
  | [] => none
  | _ :: _ =>
      let np := maxDNat (els.map (fun el => el.page_num))
      some (els.filter (fun el =>
        decide (¬(isHeaderText2 els np el.text ∧ el.y0 < 50) ∧
          ¬(isFooterText2 els np el.text ∧ 750 < el.y0))))

/-- The `close_same` test of main2 `merge_multiline_blocks` (lines 110–119). -/
def closeSame2 (buf el : TextElement) : Prop :=
  el.page_num = buf.page_num ∧ el.block_no = buf.block_no ∧
    qabs (qsub el.font_size buf.font_size) < qmk 1 5 ∧
    el.font_name = buf.font_name ∧ el.is_bold = buf.is_bold ∧
    el.is_italic = buf.is_italic ∧ qabs (qsub el.x0 buf.x0) < 2 ∧
    0 < qsub el.y0 (qadd buf.y0 buf.h) ∧ qsub el.y0 (qadd buf.y0 buf.h) < 15

instance (buf el : TextElement) : Decidable (closeSame2 buf el) := by
  unfold closeSame2; infer_instance

/-- Merging a line into the buffer: concatenated text, accumulated height. -/
def mergeBuf2 (buf el : TextElement) : TextElement :=
  { buf with text := buf.text ++ " " ++ el.text, h := qadd buf.h el.h }

/-- Sort key of main2 `merge_multiline_blocks`:
`key=lambda x: (x.page_num, x.block_no, x.line_no)`. -/
def elBlockLE (a b : TextElement) : Prop :=
  a.page_num < b.page_num ∨
    (a.page_num = b.page_num ∧ (a.block_no < b.block_no ∨
      (a.block_no = b.block_no ∧ a.line_no ≤ b.line_no)))

instance : DecidableRel elBlockLE := fun a b => by unfold elBlockLE; infer_instance

/-- The buffer loop of main2 `merge_multiline_blocks`. -/
def merge2Go : List TextElement → TextElement → List TextElement → List TextElement
  | [], buf, acc => acc ++ [buf]
  | el :: rest, buf, acc =>
      if closeSame2 buf el then merge2Go rest (mergeBuf2 buf el) acc
      else merge2Go rest el (acc ++ [buf])

/-- main2 `merge_multiline_blocks` (lines 98–128). -/
def merge_multiline_blocks2 (els : List TextElement) : List TextElement :=
  match els.insertionSort elBlockLE with
  | [] => []
  | e0 :: rest => merge2Go rest e0 []

/-- `sorted(candidates, key=lambda x: x.y0)`. -/
def sortByY (els : List TextElement) : List TextElement :=
  els.insertionSort (fun a b => a.y0 ≤ b.y0)

/-- `" ".join(parts)` and `"  ".join(parts)`. -/
def joinSep (sep : String) : List String → String
  | [] => ""
  | [s] => s
  | s :: rest => s ++ sep ++ joinSep sep rest

/-- main2 `detect_title` (lines 130–150): multi-line title from the largest
size on page 1 collected in the top region (`y0 < 250`).  Returns the title
string and the maximum page-1 size (`none` when page 1 is empty). -/
def detect_title2 (els : List TextElement) (single : Bool) : String × Option ℚ :=
  let fp := els.filter (fun el => decide (el.page_num = 1))
  match fp with
  | [] => ("", none)
  | _ :: _ =>
      let mx := maxD (fp.map (fun el => el.font_size))
      let cands := fp.filter (fun el => decide (qabs (qsub el.font_size mx) < qmk 1 5))
      match cands with
      | [] => ("", none)
      | _ :: _ =>
          let top := sortByY (cands.filter (fun el => decide (el.y0 < 250)))
          let title := stripS (joinSep " " (top.map (fun el => el.text)))
          if title.isEmpty ∧ single then ("", some mx) else (title, some mx)

/-- main2 `process_pdf_file` line 256: the page-1 elements within 0.2 of the
title size; `if title_size` is Python truthiness, so a `none` or zero size
yields no title lines. -/
def titleLines2 (els : List TextElement) (ts : Option ℚ) : List TextElement :=
  match ts with
  | some t =>
      if t = 0 then []
      else els.filter (fun el => decide (qabs (qsub el.font_size t) < qmk 1 5 ∧ el.page_num = 1))
  | none => []

/-- main2 `assign_headings` heading clusters (line 167): keep `fs` unless the
title size is truthy and `|fs - title| < 0.3`. -/
def heading_clusters2 (clusters : List ℚ) (ts : Option ℚ) : List ℚ :=
  match ts with
  | none => clusters
  | some t =>
      if t = 0 then clusters
      else clusters.filter (fun fs => !decide (qabs (qsub fs t) < qmk 3 10))

/-- The `levels` dict of main2 (first three heading clusters mapped to
H1/H2/H3); total lookup — `levels[cluster_val]` cannot fail because the
argmin below only returns keys.  The `.getD .H3` default is unreachable. -/
def lookupTotal (keys : List ℚ) (c : ℚ) : Level := (lookupLW keys c).getD .H3

/-- The `logical_page` of main2 `assign_headings` (lines 182–187):
`page_idx = (page_num - 1) if not single else 0`, then minus the offset, and
forced to 0 for a single-page document. -/
def logicalPage2 (off : ℕ) (sp : Bool) (page : ℕ) : ℤ :=
  if sp then 0 else ((page : ℤ) - 1) - (off : ℤ)

/-- Per-element decision of main2 `assign_headings` (lines 181–226) up to the
structural guard: `none` = rejected by a gate; `some (lv, pg)` = the level
after the numbering override together with the 1-based output page.  (The
source computes the overridden level before the trailing-period and
word-count gates; all three are pure, so the order is immaterial.) -/
def elLevel2 (keys : List ℚ) (tl : List String) (off : ℕ) (sp : Bool)
    (el : TextElement) : Option (Level × ℕ) :=
  if logicalPage2 off sp el.page_num < 0 then none
  else if el.page_num = 1 ∧ tl ≠ [] ∧ el.text ∈ tl then none
  else if el.text.length < 2 then none
  else
    match keys with
    | [] => none
    | _ :: _ =>
        match argminFirst (fun fs => qabs (qsub el.font_size fs)) keys with
        | none => none
        | some c =>
            if qmk 3 10 < qabs (qsub el.font_size c) then none
            else if endsDot (rstripS el.text) then none
            else if 12 < wordCount el.text then none
            else some (overrideEQ3 (find_numbering_level2 el.text) (lookupTotal keys c),
              (logicalPage2 off sp el.page_num).toNat + 1)

/-- The stateful loop of main2 `assign_headings`: the structural guard drops
an element whose rank is strictly less deep than the last emitted rank
(lines 224–226) and otherwise emits and updates `last_level`. -/
def assign2Go (keys : List ℚ) (tl : List String) (off : ℕ) (sp : Bool) :
    List TextElement → List Entry → ℕ → List Entry
  | [], acc, _ => acc
  | el :: rest, acc, last =>
      match elLevel2 keys tl off sp el with
      | none => assign2Go keys tl off sp rest acc last
      | some (lv, pg) =>
          if rank lv < last then assign2Go keys tl off sp rest acc last
          else assign2Go keys tl off sp rest (acc ++ [⟨lv, el.text, pg⟩]) (rank lv)

/-- main2 `assign_headings` (lines 162–234). -/
def assign_headings2 (els : List TextElement) (clusters : List ℚ) (ts : Option ℚ)
    (tl : List String) (off : ℕ) (sp : Bool) : List Entry :=
  assign2Go ((heading_clusters2 clusters ts).take 3) tl off sp (sortEls els) [] 0

/-- main2 `process_pdf_file` (lines 236–268) from the extracted elements on;
`pageCount` is `doc.page_count`.  `none` = the `ValueError` raised by
`remove_header_footer` on a document with zero text elements. -/
def process2 (pageCount : ℕ) (els : List TextElement) : Option DocResult :=
  let sp := pageCount = 1
  match remove_header_footer2 els with
  | none => none
  | some cleaned =>
      let merged := merge_multiline_blocks2 cleaned
      let clusters := cluster_font_sizes2 merged
      let td := detect_title2 merged sp
      let tl := titleLines2 merged td.2
      let off := if sp then 0 else 1
      some ⟨td.1, assign_headings2 merged clusters td.2 (tl.map (fun el => el.text)) off sp⟩

/-! ## main3: conservative filter, multi-part title, collapsing assigner -/

/-- Total occurrences of text `t` (`text_counts = Counter(...)` of main3). -/
def countAll3 (els : List TextElement) (t : String) : ℕ :=
  (els.filter (fun el => decide (el.text = t))).length

/-- Scan for the pattern `\d+\s+of\s+\d+` at the head of a suffix. -/
def nOfMAt (l : List Char) : Bool :=
  let p1 := takeDigits l
  if p1.1.isEmpty then false
  else
    let w1 := p1.2.takeWhile Char.isWhitespace
    if w1.isEmpty then false
    else
      match p1.2.dropWhile Char.isWhitespace with
      | 'o' :: 'f' :: r3 =>
          let w2 := r3.takeWhile Char.isWhitespace
          if w2.isEmpty then false
          else !(takeDigits (r3.dropWhile Char.isWhitespace)).1.isEmpty
      | _ => false

/-- `re.match(r'.*\d+\s+of\s+\d+.*', s)`: the pattern occurs somewhere. -/
def hasNofM : List Char → Bool
  | [] => false
  | c :: rest => nOfMAt (c :: rest) || hasNofM rest

/-- The keyword part of main3's repetitive-text test: any of "page",
"version", "©", "copyright" inside the lowercased text, or `N of M`, or a
very short text. -/
def looksHF3 (t : String) : Prop :=
  hasSub (lowerS t) "page" = true ∨ hasSub (lowerS t) "version" = true ∨
    hasSub (lowerS t) "©" = true ∨ hasSub (lowerS t) "copyright" = true ∨
    hasNofM (lowerS t).data = true ∨ t.length < 10

instance (t : String) : Decidable (looksHF3 t) := by
  unfold looksHF3; infer_instance

/-- `t ∈ repetitive_texts` of main3 `remove_header_footer` (lines 160–168):
at least `max(3, num_pages * 0.5)` occurrences anywhere, and header/footer
looks. -/
def isRepetitive3 (els : List TextElement) (t : String) : Prop :=
  max 3 (qmul (nq (numPagesDistinct els)) (qmk 1 2)) ≤ nq (countAll3 els t) ∧ looksHF3 t

instance (els : List TextElement) (t : String) : Decidable (isRepetitive3 els t) := by
  unfold isRepetitive3; infer_instance

/-- main3 `remove_header_footer` (lines 149–176): drops every occurrence of a
repetitive text, wherever it sits on the page. -/
def remove_header_footer3 (els : List TextElement) : List TextElement :=
  els.filter (fun el => !decide (isRepetitive3 els el.text))

/-- `re.match(r'^\d+$', text)`: non-empty and all digits. -/
def allDigits (s : String) : Bool := !s.data.isEmpty && s.data.all Char.isDigit

/-- main3 `detect_title` candidate rejection (line 140). -/
def badTitlePart3 (s : String) : Bool :=
  allDigits s || hasSub (lowerS s) "copyright" || hasSub (lowerS s) "page"

/-- main3 `detect_title` (lines 119–147): candidates within 1.0 of the
page-1 maximum, sorted by `y0`, first five, filtered, joined with a double
space; falls back to the first candidate when no part survives. -/
def detect_title3 (els : List TextElement) : String :=
  let fp := els.filter (fun el => decide (el.page_num = 1))
  match fp with
  | [] => ""
  | _ :: _ =>
      let mx := maxD (fp.map (fun el => el.font_size))
      let cands := sortByY (fp.filter (fun el => decide (qabs (qsub el.font_size mx) < 1)))
      let parts := ((cands.take 5).filter
        (fun el => !badTitlePart3 el.text && decide (2 < el.text.length))).map
          (fun el => el.text)
      match parts with
      | [] =>
          match cands.head? with
          | some el => el.text
          | none => ""
      | _ :: _ => joinSep "  " parts

/-- main3 `is_heading_like` (lines 199–232). -/
def is_heading_like3 (text : String) : Bool :=
  let t := stripS text
  if t.length < 3 then false
  else if allDigits t || hasSub (lowerS t) "version" || hasSub (lowerS t) "page" ||
      hasSub t "©" || hasSub (lowerS t) "copyright" then false
  else if numThenUpper3 t.data then true
  else if headingWords3.any (fun w => hasSub (lowerS t) w) then true
  else
    match t.data with
    | c :: _ => c.isUpper && decide (5 ≤ t.length ∧ t.length ≤ 100)
    | [] => false
where
  /-- `re.match(r'^\d+[\.\d\s]*[A-Z]', text)`. -/
  numThenUpper3 (l : List Char) : Bool :=
    let p := takeDigits l
    if p.1.isEmpty then false
    else
      match p.2.dropWhile (fun c => c = '.' || c.isDigit || c.isWhitespace) with
      | c :: _ => c.isUpper
      | [] => false
  headingWords3 : List String :=
    ["introduction", "overview", "content", "references", "acknowledgements",
     "history", "outcomes", "requirements", "structure", "audience", "objectives"]

/-- main3 heading sizes (lines 239–240): clusters further than 0.5 from the
title size, sorted descending. -/
def headingSizes3 (clusters : List ℚ) (ts : ℚ) : List ℚ :=
  sortDesc (clusters.filter (fun fs => decide (qmk 1 2 < qabs (qsub fs ts))))

/-- The `font_size_to_level` dict of main3 (lines 247–256): index 0 is H1,
index 1 is H2, every further index is H3; `dict.get(..., "H3")` defaults to
H3.  A key occurring several times keeps its last (deepest) assignment. -/
def lookup3 (hfs : List ℚ) (s : ℚ) : Level :=
  if (hfs.drop 2).contains s then .H3
  else if hfs.get? 1 = some s then .H2
  else if hfs.get? 0 = some s then .H1
  else .H3

/-- Per-element decision of main3 `assign_headings` (lines 265–314); main3
has no structural guard, so the loop is a `filterMap`. -/
def proc3El (hfs : List ℚ) (el : TextElement) : Option Entry :=
  if el.page_num = 1 then none
  else if !is_heading_like3 el.text then none
  else
    match argminFirst (fun fs => qabs (qsub el.font_size fs)) hfs with
    | none => none
    | some c =>
        if 1 < qabs (qsub el.font_size c) then none
        else
          some ⟨overrideGE3 (find_numbering_level3 el.text) (lookup3 hfs c),
            el.text, el.page_num⟩

/-- main3 `assign_headings` (lines 234–316). -/
def assign_headings3 (els : List TextElement) (clusters : List ℚ) (ts : ℚ) :
    List Entry :=
  (sortEls els).filterMap (proc3El (headingSizes3 clusters ts))

/-- main3 `process_pdf_file` (lines 318–345): title detected before the
header/footer filter, then clustering, the page-1 maximum of the filtered
elements as title size, and heading assignment. -/
def process3 (els : List TextElement) : DocResult :=
  let title := detect_title3 els
  let f := remove_header_footer3 els
  let clusters := cluster_font_sizes3 f
  let fp := f.filter (fun el => decide (el.page_num = 1))
  let tsize := if fp.isEmpty then 0 else maxD (fp.map (fun el => el.font_size))
  ⟨title, assign_headings3 f clusters tsize⟩

/-! ## Claim-side definitions

These definitions transcribe claim wordings (not source code); each is named
and used only to compare against the embedded source functions. -/

/-- C6 claim side: the separator after the numeric path — "space, dash,
colon, or period+space". -/
def claimSepOK : List Char → Bool
  | ' ' :: _ => true
  | '-' :: _ => true
  | ':' :: _ => true
  | '.' :: ' ' :: _ => true
  | _ => false

/-- C6 claim side, transcribing the claim's contract: a depth equal to the
number of leading dot-separated integer segments (1–3) exactly when the
trimmed text begins with such a path followed by a separator; `none`
otherwise.  Extension by a further `.digits` segment and the period+space
separator are mutually exclusive, so the parse is deterministic. -/
def claimNumbering (s : String) : Option ℕ :=
  let cs := trimL s.data
  let p1 := takeDigits cs
  if p1.1.isEmpty then none
  else
    match p1.2 with
    | '.' :: r1 =>
        let p2 := takeDigits r1
        if p2.1.isEmpty then if claimSepOK p1.2 then some 1 else none
        else
          match p2.2 with
          | '.' :: r2 =>
              let p3 := takeDigits r2
              if p3.1.isEmpty then if claimSepOK p2.2 then some 2 else none
              else if claimSepOK p3.2 then some 3 else none
          | r => if claimSepOK r then some 2 else none
    | r => if claimSepOK r then some 1 else none

/-- C6 amended, for main1: a depth equal to the number of leading
dot-separated integer segments capped at 3, exactly when the trimmed text
begins with an integer — no trailing separator required. -/
def amendedNumbering1 (s : String) : Option ℕ :=
  let cs := trimL s.data
  let p := takeDigits cs
  if p.1.isEmpty then none
  else some (min (1 + dotGroupsAll p.2) 3)

/-- A non-empty all-digit character list (one integer segment). -/
def isDigitList (l : List Char) : Prop := l ≠ [] ∧ ∀ c ∈ l, c.isDigit = true

/-- C7: the trimmed text has the form `"2.1 Something"` — two dot-separated
integer segments followed by a space. -/
def twoSegForm (s : String) : Prop :=
  ∃ d1 d2 rest, isDigitList d1 ∧ isDigitList d2 ∧
    trimL s.data = d1 ++ '.' :: (d2 ++ ' ' :: rest)

/-- Number of distinct pages on which text `t` occurs inside the top margin
band `y0 < 50` (the claim C3/C8 trigger). -/
def distinctTopPages (els : List TextElement) (t : String) : ℕ :=
  (((els.filter (fun el => decide (el.y0 < 50 ∧ el.text = t))).map
    (fun el => el.page_num)).dedup).length

/-! ## Concrete example documents -/

/-- C1: page 1 holds only size-12 text, page 2 holds size-30 text, so the
Title Detector's size (12) differs from `max(font_clusters)` (30). -/
def c1els : List TextElement :=
  [⟨"My Title", 12, "F", false, false, 50, 100, 0, 0, 1, 0, 0⟩,
   ⟨"Huge", 30, "F", false, false, 50, 100, 0, 0, 2, 0, 0⟩,
   ⟨"Overview", 12, "F", false, false, 50, 200, 0, 0, 2, 1, 0⟩]

/-- C2 counterexample: a single-page document for main2 (`page_count = 1`). -/
def c2spels : List TextElement :=
  [⟨"Big Title", 24, "F", false, false, 50, 100, 200, 12, 1, 0, 0⟩,
   ⟨"Overview", 16, "F", false, false, 50, 300, 100, 8, 1, 1, 0⟩,
   ⟨"This is body text.", 11, "F", false, false, 50, 400, 100, 6, 1, 2, 0⟩]

/-- C2 witness document for the amended main1 statement. -/
def c2wels : List TextElement :=
  [⟨"Cover", 30, "F", false, false, 50, 100, 0, 0, 1, 0, 0⟩,
   ⟨"Overview", 12, "F", false, false, 50, 200, 0, 0, 2, 0, 0⟩]

/-- C3: "Confidential" sits in the top band on both pages and once in the
body of page 2; the body occurrence survives main1's filter. -/
def c3els : List TextElement :=
  [⟨"Confidential", 10, "F", false, false, 50, 10, 0, 0, 1, 0, 0⟩,
   ⟨"Confidential", 10, "F", false, false, 50, 10, 0, 0, 2, 0, 0⟩,
   ⟨"Confidential", 10, "F", false, false, 50, 400, 0, 0, 2, 1, 0⟩]

/-- C5 witness document: two far-apart sizes. -/
def c5els : List TextElement :=
  [⟨"A", 12, "F", false, false, 0, 0, 0, 0, 1, 0, 0⟩,
   ⟨"B", 30, "F", false, false, 0, 0, 0, 0, 2, 0, 0⟩]

/-- C7 witness document: "2.1 Background" carries the H1 font size (16),
yet must be emitted as H2. -/
def c7els : List TextElement :=
  [⟨"T", 20, "F", false, false, 50, 100, 0, 0, 1, 0, 0⟩,
   ⟨"2.1 Background", 16, "F", false, false, 50, 100, 0, 0, 2, 0, 0⟩]

/-- C8 witness (main1): a 10-page document; "Confidential Draft" occurs in
the top band (`y0 = 30`) of pages 1–8 and nowhere else. -/
def c8els1 : List TextElement :=
  ⟨"Report Title", 20, "F", false, false, 50, 100, 0, 0, 1, 0, 0⟩ ::
  (List.range 8).map (fun i =>
    ⟨"Confidential Draft", 12, "F", false, false, 50, 30, 100, 6, i + 1, 0, 0⟩) ++
  (List.range 10).map (fun i =>
    ⟨"Some body text here", 11, "F", false, false, 50, 400, 100, 6, i + 1, 1, 0⟩)

/-- C8 counterexample (main3): the same synthetic layout without the large
title, so "Confidential Draft" carries the page-1 maximum size. -/
def c8els3 : List TextElement :=
  (List.range 8).map (fun i =>
    ⟨"Confidential Draft", 12, "F", false, false, 50, 30, 100, 6, i + 1, 0, 0⟩) ++
  (List.range 10).map (fun i =>
    ⟨"Some body text here", 11, "F", false, false, 50, 400, 100, 6, i + 1, 1, 0⟩)

/-- C10 witness document: four non-title clusters 16/14/12/10; "History"
matches the fourth one. -/
def c10els : List TextElement :=
  [⟨"Title", 20, "F", false, false, 50, 100, 0, 0, 1, 0, 0⟩,
   ⟨"Introduction", 16, "F", false, false, 50, 100, 0, 0, 2, 0, 0⟩,
   ⟨"Overview", 14, "F", false, false, 50, 200, 0, 0, 2, 1, 0⟩,
   ⟨"References", 12, "F", false, false, 50, 300, 0, 0, 2, 2, 0⟩,
   ⟨"History", 10, "F", false, false, 50, 400, 0, 0, 2, 3, 0⟩]

/-! # Theorems -/

/-! ## The q-operations are the field operations of `ℚ` -/

theorem qadd_eq (a b : ℚ) : qadd a b = a + b := by
  have ha : ((a.den : ℚ)) ≠ 0 := Nat.cast_ne_zero.mpr (Rat.den_ne_zero a)
  have hb : ((b.den : ℚ)) ≠ 0 := Nat.cast_ne_zero.mpr (Rat.den_ne_zero b)
  have h1 : (a.num : ℚ) = a * a.den := (div_eq_iff ha).mp (Rat.num_div_den a)
  have h2 : (b.num : ℚ) = b * b.den := (div_eq_iff hb).mp (Rat.num_div_den b)
  rw [qadd, Rat.divInt_eq_div]
  push_cast
  field_simp
  rw [h1, h2]
  ring

theorem qsub_eq (a b : ℚ) : qsub a b = a - b := by
  have ha : ((a.den : ℚ)) ≠ 0 := Nat.cast_ne_zero.mpr (Rat.den_ne_zero a)
  have hb : ((b.den : ℚ)) ≠ 0 := Nat.cast_ne_zero.mpr (Rat.den_ne_zero b)
  have h1 : (a.num : ℚ) = a * a.den := (div_eq_iff ha).mp (Rat.num_div_den a)
  have h2 : (b.num : ℚ) = b * b.den := (div_eq_iff hb).mp (Rat.num_div_den b)
  rw [qsub, Rat.divInt_eq_div]
  push_cast
  field_simp
  rw [h1, h2]
  ring

theorem qmul_eq (a b : ℚ) : qmul a b = a * b := by
  have ha : ((a.den : ℚ)) ≠ 0 := Nat.cast_ne_zero.mpr (Rat.den_ne_zero a)
  have hb : ((b.den : ℚ)) ≠ 0 := Nat.cast_ne_zero.mpr (Rat.den_ne_zero b)
  have h1 : (a.num : ℚ) = a * a.den := (div_eq_iff ha).mp (Rat.num_div_den a)
  have h2 : (b.num : ℚ) = b * b.den := (div_eq_iff hb).mp (Rat.num_div_den b)
  rw [qmul, Rat.divInt_eq_div]
  push_cast
  field_simp
  rw [h1, h2]
  ring

theorem qdiv_eq (a b : ℚ) : qdiv a b = a / b := by
  rcases eq_or_ne b 0 with hb0 | hb0
  · subst hb0
    simp [qdiv, Rat.divInt_eq_div]
  · have ha : ((a.den : ℚ)) ≠ 0 := Nat.cast_ne_zero.mpr (Rat.den_ne_zero a)
    have hb : ((b.den : ℚ)) ≠ 0 := Nat.cast_ne_zero.mpr (Rat.den_ne_zero b)
    have hbn : ((b.num : ℚ)) ≠ 0 := by exact_mod_cast Rat.num_ne_zero.mpr hb0
    have h1 : (a.num : ℚ) = a * a.den := (div_eq_iff ha).mp (Rat.num_div_den a)
    have h2 : (b.num : ℚ) = b * b.den := (div_eq_iff hb).mp (Rat.num_div_den b)
    rw [qdiv, Rat.divInt_eq_div]
    push_cast
    field_simp
    rw [h1, h2]
    ring

theorem qabs_eq (a : ℚ) : qabs a = |a| := by
  have hd : (0:ℚ) < (a.den : ℚ) := by exact_mod_cast a.den_pos
  rw [qabs, Rat.divInt_eq_div, Int.natCast_natAbs]
  conv_rhs => rw [← Rat.num_div_den a]
  rw [abs_div, abs_of_pos hd]
  push_cast
  rfl

theorem qsum_eq (l : List ℚ) : qsum l = l.sum := by
  induction l with
  | nil => simp [qsum]
  | cons a rest ih => simp [qsum, List.foldr_cons, qadd_eq, List.sum_cons]
                      simpa [qsum] using ih

theorem mean_eq (l : List ℚ) : mean l = l.sum / l.length := by
  rw [mean, qdiv_eq, qsum_eq, nq]

theorem nq_eq (n : ℕ) : nq n = (n : ℚ) := rfl

/-! ## Order-theoretic instances for the descending sorts -/

instance : IsTotal ℚ (· ≥ ·) := ⟨fun a b => le_total b a⟩

instance : IsTrans ℚ (· ≥ ·) := ⟨fun _ _ _ hab hbc => le_trans hbc hab⟩

instance : IsAntisymm ℚ (· ≥ ·) := ⟨fun _ _ hab hba => le_antisymm hba hab⟩

instance : IsTrans ℚ (· > ·) := ⟨fun _ _ _ hab hbc => lt_trans hbc hab⟩

theorem sortDesc_perm (l : List ℚ) : (sortDesc l).Perm l := List.perm_insertionSort _ l

theorem sortDesc_sorted (l : List ℚ) : (sortDesc l).Sorted (· ≥ ·) :=
  List.sorted_insertionSort _ l

theorem sortDesc_eq_self {l : List ℚ} (h : l.Sorted (· ≥ ·)) : sortDesc l = l :=
  List.eq_of_perm_of_sorted (sortDesc_perm l) (sortDesc_sorted l) h

theorem lookupLW_of_notMem {hfs : List ℚ} {s : ℚ} (h : s ∉ hfs) : lookupLW hfs s = none := by
  have h2 : hfs.get? 2 ≠ some s := fun hc => h (List.get?_mem hc)
  have h1 : hfs.get? 1 ≠ some s := fun hc => h (List.get?_mem hc)
  have h0 : hfs.get? 0 ≠ some s := fun hc => h (List.get?_mem hc)
  simp only [List.get?_eq_getElem?] at h0 h1 h2
  simp [lookupLW, h0, h1, h2]

/-! ## C1 — title-size exclusion -/

/-- Claim C1, counterexample: in main1 the value excluded from the heading
mapping is `max(font_clusters)` over the whole document, not the Title
Detector's first-page maximum.  On `c1els` the Title Detector selects size
12, yet the same document's Heading Assigner maps 12 to H1 and emits an H1
at that size. -/
theorem c1_counterexample :
    title_max_size1 c1els = 12 ∧
    lookupLW
      (headingSizes1 (cluster_font_sizes1 (remove_header_footer1 c1els))
        (maxD (cluster_font_sizes1 (remove_header_footer1 c1els)))) 12 = some .H1 ∧
    process1 c1els = ⟨"My Title", [⟨.H1, "Overview", 2⟩]⟩ := by decide

/-- Claim C1, amended: the font size the Heading Assigner actually excludes —
the `title_font_size` argument, which in main1's pipeline is the largest
cluster representative rather than the Title Detector's first-page maximum —
is never a key of the H1/H2/H3 mapping. -/
theorem c1_amended (clusters : List ℚ) (tsize : ℚ) :
    lookupLW (headingSizes1 clusters tsize) tsize = none := by
  apply lookupLW_of_notMem
  intro hmem
  have hmem2 := (sortDesc_perm _).mem_iff.mp hmem
  have := (List.mem_filter.mp hmem2).2
  simp only [decide_eq_true_eq] at this
  rw [qabs_eq, qsub_eq, sub_self, abs_zero] at this
  have h310 : (0:ℚ) < qmk 3 10 := by
    rw [qmk, Rat.divInt_eq_div]
    norm_num
  exact absurd this (not_lt.mpr (le_of_lt h310))

/-! ## C4 — empty-document totality -/

/-- Claim C4: main1's pipeline maps a document with zero text elements to
`{title: "", outline: []}`, but main2's pipeline hits `max()` on an empty
sequence inside `remove_header_footer` and raises, for any page count. -/
theorem c4_theorem :
    process1 [] = ⟨"", []⟩ ∧ ∀ pageCount : ℕ, process2 pageCount [] = none :=
  ⟨by decide, fun _ => rfl⟩

/-! ## C3 — header/footer removal scope -/

/-- Claim C3, counterexample: "Confidential" appears in the top band on 2 of
2 distinct pages (above the 0.7 threshold), yet main1's filter keeps the
body occurrence at `y0 = 400` — the text is not removed from all of its
occurrences. -/
theorem c3_counterexample :
    distinctTopPages c3els "Confidential" = 2 ∧ numPagesDistinct c3els = 2 ∧
    (remove_header_footer1 c3els).map (fun el => el.text) = ["Confidential"] ∧
    (remove_header_footer1 c3els).map (fun el => el.y0) = [400] := by decide

/-- Shared with C8: above the distinct-page frequency threshold, no top-band
occurrence of `t` survives main1's filter. -/
theorem remove1_top_removed (els : List TextElement) (t : String)
    (hfreq : qmul (qmk 7 10) (nq (numPagesDistinct els)) < nq (distinctTopPages els t)) :
    ∀ el ∈ remove_header_footer1 els, el.text = t → ¬(el.y0 < 50) := by
  have hle : distinctTopPages els t ≤ topCount1 els t := by
    unfold distinctTopPages topCount1
    calc (((els.filter (fun el => decide (el.y0 < 50 ∧ el.text = t))).map
            (fun el => el.page_num)).dedup).length
        ≤ ((els.filter (fun el => decide (el.y0 < 50 ∧ el.text = t))).map
            (fun el => el.page_num)).length := (List.dedup_sublist _).length_le
      _ = (els.filter (fun el => decide (el.y0 < 50 ∧ el.text = t))).length :=
            List.length_map _ _
  have hcand : isHeaderCand1 els t := by
    unfold isHeaderCand1
    refine lt_of_lt_of_le hfreq ?_
    rw [nq_eq, nq_eq]
    exact_mod_cast hle
  intro el hmem htext hy
  have hk := (List.mem_filter.mp hmem).2
  simp only [decide_eq_true_eq] at hk
  exact hk.1 ⟨hy, htext ▸ hcand⟩

/-- Shared with C8: any element outside both margin bands survives main1's
filter, whatever its text. -/
theorem remove1_keeps_body (els : List TextElement) :
    ∀ el ∈ els, 50 ≤ el.y0 → el.y0 ≤ 750 → el ∈ remove_header_footer1 els := by
  intro el hmem h50 h750
  refine List.mem_filter.mpr ⟨hmem, ?_⟩
  simp only [decide_eq_true_eq]
  exact ⟨fun hc => absurd hc.1 (not_lt.mpr h50), fun hc => absurd hc.1 (not_lt.mpr h750)⟩

/-- Claim C3, amended: when the number of distinct pages on which a text
appears in the top margin band exceeds 0.7 of the total page count, main1's
Header/Footer Filter removes that text's occurrences inside the top band
only; every occurrence outside the margin bands is kept. -/
theorem c3_amended (els : List TextElement) (t : String)
    (hfreq : qmul (qmk 7 10) (nq (numPagesDistinct els)) < nq (distinctTopPages els t)) :
    (∀ el ∈ remove_header_footer1 els, el.text = t → ¬(el.y0 < 50)) ∧
    (∀ el ∈ els, 50 ≤ el.y0 → el.y0 ≤ 750 → el ∈ remove_header_footer1 els) :=
  ⟨remove1_top_removed els t hfreq, remove1_keeps_body els⟩

/-- Claim C3, witness: the theorem applied to `c3els`, showing the body
occurrence surviving the filter. -/
theorem c3_witness :
    (⟨"Confidential", 10, "F", false, false, 50, 400, 0, 0, 2, 1, 0⟩ : TextElement) ∈
      remove_header_footer1 c3els :=
  (c3_amended c3els "Confidential" (by decide)).2 _ (by decide) (by decide) (by decide)

/-! ## Provenance lemmas for the three assigners -/

theorem proc1El_eq_some {clusters hfs : List ℚ} {el : TextElement} {e : Entry}
    (h : proc1El clusters hfs el = some e) :
    e.text = el.text ∧ e.page = el.page_num ∧ el.page_num ≠ 1 ∧
      ∃ lv0, e.level = overrideGE3 (find_numbering_level1 el.text) lv0 := by
  unfold proc1El at h
  split at h
  · exact absurd h (by simp)
  next hpg =>
    split at h
    · exact absurd h (by simp)
    · split at h
      · exact absurd h (by simp)
      next c hargm =>
        split at h
        · exact absurd h (by simp)
        next lv0 hlook =>
          split at h
          · exact absurd h (by simp)
          · rcases Option.some_inj.mp h with rfl
            exact ⟨rfl, rfl, hpg, lv0, rfl⟩

theorem assign_headings1_mem {els : List TextElement} {clusters : List ℚ} {tsize : ℚ}
    {e : Entry} (h : e ∈ assign_headings1 els clusters tsize) :
    ∃ el, el ∈ els ∧ proc1El clusters (headingSizes1 clusters tsize) el = some e := by
  unfold assign_headings1 at h
  rcases List.mem_filterMap.mp h with ⟨el, hmem, hel⟩
  exact ⟨el, (List.perm_insertionSort elReadLE els).mem_iff.mp hmem, hel⟩

theorem proc3El_eq_some {hfs : List ℚ} {el : TextElement} {e : Entry}
    (h : proc3El hfs el = some e) :
    e.text = el.text ∧ e.page = el.page_num ∧ el.page_num ≠ 1 ∧
      ∃ c, e.level = overrideGE3 (find_numbering_level3 el.text) (lookup3 hfs c) := by
  unfold proc3El at h
  split at h
  · exact absurd h (by simp)
  next hpg =>
    split at h
    · exact absurd h (by simp)
    · split at h
      · exact absurd h (by simp)
      next c hargm =>
        split at h
        · exact absurd h (by simp)
        · rcases Option.some_inj.mp h with rfl
          exact ⟨rfl, rfl, hpg, c, rfl⟩

theorem assign_headings3_mem {els : List TextElement} {clusters : List ℚ} {ts : ℚ}
    {e : Entry} (h : e ∈ assign_headings3 els clusters ts) :
    ∃ el, el ∈ els ∧ proc3El (headingSizes3 clusters ts) el = some e := by
  unfold assign_headings3 at h
  rcases List.mem_filterMap.mp h with ⟨el, hmem, hel⟩
  exact ⟨el, (List.perm_insertionSort elReadLE els).mem_iff.mp hmem, hel⟩

theorem assign2Go_mem {keys : List ℚ} {tl : List String} {off : ℕ} {sp : Bool} :
    ∀ {l : List TextElement} {acc : List Entry} {last : ℕ} {e : Entry},
      e ∈ assign2Go keys tl off sp l acc last →
      e ∈ acc ∨ ∃ el lv pg, el ∈ l ∧ elLevel2 keys tl off sp el = some (lv, pg) ∧
        e = ⟨lv, el.text, pg⟩ := by
  intro l
  induction l with
  | nil => intro acc last e h; exact Or.inl h
  | cons el rest ih =>
      intro acc last e h
      unfold assign2Go at h
      cases helv : elLevel2 keys tl off sp el with
      | none =>
          rw [helv] at h
          rcases ih h with h1 | ⟨el2, lv, pg, hm, he, heq⟩
          · exact Or.inl h1
          · exact Or.inr ⟨el2, lv, pg, List.mem_cons_of_mem _ hm, he, heq⟩
      | some p =>
          obtain ⟨lv, pg⟩ := p
          rw [helv] at h
          replace h : e ∈
              (if rank lv < last then assign2Go keys tl off sp rest acc last
               else assign2Go keys tl off sp rest
                 (acc ++ [⟨lv, el.text, pg⟩]) (rank lv)) := h
          by_cases hr : rank lv < last
          · rw [if_pos hr] at h
            rcases ih h with h1 | ⟨el2, lv2, pg2, hm, he, heq⟩
            · exact Or.inl h1
            · exact Or.inr ⟨el2, lv2, pg2, List.mem_cons_of_mem _ hm, he, heq⟩
          · rw [if_neg hr] at h
            rcases ih h with h1 | ⟨el2, lv2, pg2, hm, he, heq⟩
            · rcases List.mem_append.mp h1 with ha | hb
              · exact Or.inl ha
              · rcases List.mem_singleton.mp hb with rfl
                exact Or.inr ⟨el, lv, pg, List.mem_cons_self _ _, helv, rfl⟩
            · exact Or.inr ⟨el2, lv2, pg2, List.mem_cons_of_mem _ hm, he, heq⟩

theorem assign_headings2_mem {els : List TextElement} {clusters : List ℚ} {ts : Option ℚ}
    {tl : List String} {off : ℕ} {sp : Bool} {e : Entry}
    (h : e ∈ assign_headings2 els clusters ts tl off sp) :
    ∃ el lv pg, el ∈ els ∧
      elLevel2 ((heading_clusters2 clusters ts).take 3) tl off sp el = some (lv, pg) ∧
      e = ⟨lv, el.text, pg⟩ := by
  unfold assign_headings2 at h
  rcases assign2Go_mem h with h1 | ⟨el, lv, pg, hm, he, heq⟩
  · exact absurd h1 (List.not_mem_nil e)
  · exact ⟨el, lv, pg, (List.perm_insertionSort elReadLE els).mem_iff.mp hm, he, heq⟩

theorem elLevel2_page {keys : List ℚ} {tl : List String} {el : TextElement}
    {lv : Level} {pg : ℕ} (h : elLevel2 keys tl 1 false el = some (lv, pg)) :
    2 ≤ el.page_num := by
  by_contra hlt
  push_neg at hlt
  have hneg : logicalPage2 1 false el.page_num < 0 := by
    unfold logicalPage2
    rw [if_neg (by decide : ¬(false = true))]
    omega
  unfold elLevel2 at h
  rw [if_pos hneg] at h
  exact Option.noConfusion h

/-! ## C2 — page-1 exclusion -/

/-- Claim C2, counterexample: for a single-page document, main2's Heading
Assigner (run by the pipeline with `page_offset = 0`, `is_single_page`) emits
the entry "Overview" even though every element of the layout is physically on
page 1. -/
theorem c2_counterexample :
    process2 1 c2spels = some ⟨"Big Title", [⟨.H1, "Overview", 1⟩]⟩ ∧
    c2spels.map (fun el => el.page_num) = [1, 1, 1] := by decide

/-- Claim C2, amended: main1's Heading Assigner never emits an entry whose
page is 1 (its entries carry the physical page), and main2's Heading
Assigner in the multi-page configuration the pipeline uses
(`page_offset = 1`, not single-page) only emits entries sourced from
elements whose physical page is at least 2.  In main2's single-page
configuration a physical page-1 element can be emitted (see the
counterexample). -/
theorem c2_amended :
    (∀ (els : List TextElement) (clusters : List ℚ) (tsize : ℚ) (e : Entry),
        e ∈ assign_headings1 els clusters tsize → e.page ≠ 1) ∧
    (∀ (els : List TextElement) (clusters : List ℚ) (ts : Option ℚ)
        (tl : List String) (e : Entry),
        e ∈ assign_headings2 els clusters ts tl 1 false →
        ∃ el, el ∈ els ∧ e.text = el.text ∧ 2 ≤ el.page_num) := by
  constructor
  · intro els clusters tsize e h
    rcases assign_headings1_mem h with ⟨el, _, hproc⟩
    rcases proc1El_eq_some hproc with ⟨-, hpage, hne1, -⟩
    rw [hpage]
    exact hne1
  · intro els clusters ts tl e h
    rcases assign_headings2_mem h with ⟨el, lv, pg, hmem, helv, rfl⟩
    exact ⟨el, hmem, rfl, elLevel2_page helv⟩

/-- Claim C2, witness: the amended main1 statement applied to a concrete
two-page document whose page-2 element "Overview" is emitted. -/
theorem c2_witness : (Entry.mk .H1 "Overview" 2).page ≠ 1 :=
  c2_amended.1 c2wels [30, 12] 30 _ (by decide)

/-! ## C8 — header/footer removal end-to-end -/

theorem detect_title1_cases (l : List TextElement) :
    detect_title1 l = "" ∨ ∃ el, el ∈ l ∧ detect_title1 l = el.text := by
  unfold detect_title1
  cases hfp : l.filter (fun el => decide (el.page_num = 1)) with
  | nil => exact Or.inl rfl
  | cons a rest =>
      cases hh : (sortByScore1 ((a :: rest).filter (fun el =>
          decide (qabs (qsub el.font_size
            (maxD ((a :: rest).map (fun el => el.font_size)))) < qmk 1 5)))).head? with
      | none => simp only [hh]; exact Or.inl trivial
      | some el =>
          simp only [hh]
          refine Or.inr ⟨el, ?_, rfl⟩
          have h1 : el ∈ sortByScore1 ((a :: rest).filter (fun el =>
              decide (qabs (qsub el.font_size
                (maxD ((a :: rest).map (fun el => el.font_size)))) < qmk 1 5))) :=
            List.mem_of_mem_head? hh
          have h2 := (List.perm_insertionSort _ _).mem_iff.mp h1
          have h3 : el ∈ a :: rest := List.mem_of_mem_filter h2
          rw [← hfp] at h3
          exact List.mem_of_mem_filter h3

/-- Claim C8, counterexample: in main3's pipeline the title is detected
before the Header/Footer Filter runs, and the filter only drops keyword or
short texts; for the synthetic 10-page document in which "Confidential
Draft" occurs only in the top margin band of 8 pages, the string becomes the
detected title and is emitted in the outline on every remaining page. -/
theorem c8_counterexample :
    (process3 c8els3).title = "Confidential Draft" ∧
    distinctTopPages c8els3 "Confidential Draft" = 8 ∧
    numPagesDistinct c8els3 = 10 ∧
    (c8els3.filter (fun el => decide (el.text = "Confidential Draft"))).all
      (fun el => decide (el.y0 < 80)) = true ∧
    ((process3 c8els3).outline.filter
      (fun e => decide (e.text = "Confidential Draft"))).length = 7 := by decide

/-- Claim C8, amended: the end-to-end removal property holds for main1's
pipeline.  For a non-empty text occurring, across more than 0.7 of the pages,
only inside the top margin band, the text appears neither as the detected
title nor in any outline entry.  (main3's pipeline violates the property —
see the counterexample.) -/
theorem c8_amended (els : List TextElement) (t : String) (ht : t ≠ "")
    (hpos : ∀ el ∈ els, el.text = t → el.y0 < 50)
    (hfreq : qmul (qmk 7 10) (nq (numPagesDistinct els)) < nq (distinctTopPages els t)) :
    (process1 els).title ≠ t ∧ ∀ e ∈ (process1 els).outline, e.text ≠ t := by
  have hsurv : ∀ el ∈ remove_header_footer1 els, el.text ≠ t := by
    intro el hmem htext
    have hin : el ∈ els := List.mem_of_mem_filter hmem
    exact remove1_top_removed els t hfreq el hmem htext (hpos el hin htext)
  constructor
  · show detect_title1 (remove_header_footer1 els) ≠ t
    rcases detect_title1_cases (remove_header_footer1 els) with hcase | ⟨el, hmem, heq⟩
    · rw [hcase]; exact fun h => ht h.symm
    · rw [heq]; exact hsurv el hmem
  · intro e he
    have he2 : e ∈ assign_headings1 (remove_header_footer1 els)
        (cluster_font_sizes1 (remove_header_footer1 els))
        (maxD (cluster_font_sizes1 (remove_header_footer1 els))) := he
    rcases assign_headings1_mem he2 with ⟨el, hmem, hproc⟩
    rcases proc1El_eq_some hproc with ⟨htext, -, -, -⟩
    rw [htext]
    exact hsurv el hmem

/-- Claim C8, witness: the amended statement applied to the concrete 10-page
synthetic document. -/
theorem c8_witness : (process1 c8els1).title ≠ "Confidential Draft" :=
  (c8_amended c8els1 "Confidential Draft" (by decide) (by decide) (by decide)).1

/-! ## C9 — strict structural guard of main2 -/

theorem assign2Go_chain (keys : List ℚ) (tl : List String) (off : ℕ) (sp : Bool) :
    ∀ (l : List TextElement) (acc : List Entry) (last : ℕ),
      List.Chain' (fun a b => rank a.level ≤ rank b.level) acc →
      (∀ x ∈ acc.getLast?, rank x.level ≤ last) →
      List.Chain' (fun a b => rank a.level ≤ rank b.level)
        (assign2Go keys tl off sp l acc last) := by
  intro l
  induction l with
  | nil => intro acc last hc _; exact hc
  | cons el rest ih =>
      intro acc last hc hlast
      unfold assign2Go
      cases helv : elLevel2 keys tl off sp el with
      | none => exact ih acc last hc hlast
      | some p =>
          obtain ⟨lv, pg⟩ := p
          show List.Chain' _
            (if rank lv < last then assign2Go keys tl off sp rest acc last
             else assign2Go keys tl off sp rest (acc ++ [⟨lv, el.text, pg⟩]) (rank lv))
          by_cases hr : rank lv < last
          · rw [if_pos hr]
            exact ih acc last hc hlast
          · rw [if_neg hr]
            apply ih
            · refine List.chain'_append.mpr ⟨hc, List.chain'_singleton _, ?_⟩
              intro x hx y hy
              rcases List.mem_singleton.mp (by simpa using hy) with rfl
              exact le_trans (hlast x hx) (not_lt.mp hr)
            · intro x hx
              rw [List.getLast?_concat] at hx
              rcases Option.mem_some_iff.mp hx with rfl
              exact le_rfl

/-- Claim C9: in main2's Heading Assigner, an element whose level rank is
less deep than the last emitted rank is suppressed entirely and the state is
left unchanged; consequently the sequence of emitted level ranks is
non-decreasing for every input. -/
theorem c9_theorem (els : List TextElement) (clusters : List ℚ) (ts : Option ℚ)
    (tl : List String) (off : ℕ) (sp : Bool) :
    List.Chain' (fun a b => rank a.level ≤ rank b.level)
      (assign_headings2 els clusters ts tl off sp) := by
  unfold assign_headings2
  exact assign2Go_chain _ _ _ _ _ [] 0 List.chain'_nil (by simp)

/-! ## C10 — clusters beyond the second collapse into H3 in main3 -/

theorem lookup3_eq_H3 {hfs : List ℚ} {c : ℚ}
    (h0 : hfs.get? 0 ≠ some c) (h1 : hfs.get? 1 ≠ some c) : lookup3 hfs c = .H3 := by
  unfold lookup3
  by_cases hd : (hfs.drop 2).contains c = true
  · rw [if_pos hd]
  · rw [if_neg hd, if_neg h1, if_neg h0]

/-- Claim C10: in main3's Heading Assigner, a heading cluster that is not in
the first two positions maps to H3, so an element matching such a cluster
within the 1.0 tolerance (and passing the content gate, with no numbering
signal) is emitted as an H3 entry. -/
theorem c10_theorem (els : List TextElement) (clusters : List ℚ) (ts : ℚ)
    (el : TextElement) (c : ℚ)
    (hmem : el ∈ els) (hpg : ¬(el.page_num = 1))
    (hlike : is_heading_like3 el.text = true)
    (hnum : find_numbering_level3 el.text = none)
    (hargm : argminFirst (fun fs => qabs (qsub el.font_size fs))
      (headingSizes3 clusters ts) = some c)
    (htol : ¬(1 < qabs (qsub el.font_size c)))
    (h0 : (headingSizes3 clusters ts).get? 0 ≠ some c)
    (h1 : (headingSizes3 clusters ts).get? 1 ≠ some c) :
    (⟨.H3, el.text, el.page_num⟩ : Entry) ∈ assign_headings3 els clusters ts := by
  unfold assign_headings3
  apply List.mem_filterMap.mpr
  refine ⟨el, (List.perm_insertionSort elReadLE els).mem_iff.mpr hmem, ?_⟩
  unfold proc3El
  rw [if_neg hpg]
  rw [if_neg (by rw [hlike]; exact fun hc => Bool.noConfusion hc)]
  rw [hargm]
  show (if 1 < qabs (qsub el.font_size c) then none
    else some (Entry.mk (overrideGE3 (find_numbering_level3 el.text)
      (lookup3 (headingSizes3 clusters ts) c)) el.text el.page_num)) =
    some (Entry.mk .H3 el.text el.page_num)
  rw [if_neg htol, hnum, lookup3_eq_H3 h0 h1]
  rfl

/-- Claim C10, witness: "History" (size 10) matches the fourth non-title
cluster of `[20, 16, 14, 12, 10]` (title size 20) and is emitted as H3. -/
theorem c10_witness :
    (⟨.H3, "History", 2⟩ : Entry) ∈ assign_headings3 c10els [20, 16, 14, 12, 10] 20 :=
  c10_theorem c10els [20, 16, 14, 12, 10] 20
    ⟨"History", 10, "F", false, false, 50, 400, 0, 0, 2, 3, 0⟩ 10
    (by decide) (by decide) (by decide) (by decide) (by decide) (by decide)
    (by decide) (by decide)

/-! ## C7 — numbering override forces H2 -/

theorem takeDigits_append {d : List Char} (hd : ∀ x ∈ d, x.isDigit = true)
    {c : Char} (hc : c.isDigit = false) (rest : List Char) :
    takeDigits (d ++ c :: rest) = (d, c :: rest) := by
  induction d with
  | nil => simp [takeDigits, hc]
  | cons a as ih =>
      have ha : a.isDigit = true := hd a (List.mem_cons_self _ _)
      have ih2 := ih (fun x hx => hd x (List.mem_cons_of_mem _ hx))
      simp [takeDigits, ha, ih2]

theorem digit_not_ws {c : Char} (h : c.isDigit = true) : c.isWhitespace = false := by
  cases hw : c.isWhitespace
  · rfl
  · exfalso
    unfold Char.isWhitespace at hw
    simp only [Bool.or_eq_true, decide_eq_true_eq] at hw
    rcases hw with ((rfl | rfl) | rfl) | rfl <;> exact absurd h (by decide)

theorem isEmpty_false_of_ne_nil {l : List Char} (h : l ≠ []) : l.isEmpty = false := by
  cases l with
  | nil => exact absurd rfl h
  | cons a as => rfl

theorem dotGroups_two_of_twoSeg {d2 rest : List Char} (h2ne : d2 ≠ [])
    (h2d : ∀ x ∈ d2, x.isDigit = true) :
    dotGroups 2 ('.' :: (d2 ++ ' ' :: rest)) = (1, ' ' :: rest) := by
  have e2 : takeDigits (d2 ++ ' ' :: rest) = (d2, ' ' :: rest) :=
    takeDigits_append h2d (by decide) _
  show (if (takeDigits (d2 ++ ' ' :: rest)).1.isEmpty = true
      then ((0 : ℕ), '.' :: (d2 ++ ' ' :: rest))
      else ((dotGroups 1 (takeDigits (d2 ++ ' ' :: rest)).2).1 + 1,
            (dotGroups 1 (takeDigits (d2 ++ ' ' :: rest)).2).2)) = (1, ' ' :: rest)
  rw [e2, isEmpty_false_of_ne_nil h2ne]
  rfl

theorem twoSeg_find1 {s : String} (h : twoSegForm s) :
    find_numbering_level1 s = some 2 := by
  obtain ⟨d1, d2, rest, ⟨h1ne, h1d⟩, ⟨h2ne, h2d⟩, heq⟩ := h
  have e1 : takeDigits (trimL s.data) = (d1, '.' :: (d2 ++ ' ' :: rest)) := by
    rw [heq]; exact takeDigits_append h1d (by decide) _
  simp only [find_numbering_level1, e1, isEmpty_false_of_ne_nil h1ne,
    Bool.false_eq_true, if_false, dotGroups_two_of_twoSeg h2ne h2d]
  rfl

theorem twoSeg_find2 {s : String} (h : twoSegForm s) :
    find_numbering_level2 s = some 2 := by
  obtain ⟨d1, d2, rest, ⟨h1ne, h1d⟩, ⟨h2ne, h2d⟩, heq⟩ := h
  have e1 : takeDigits (trimL s.data) = (d1, '.' :: (d2 ++ ' ' :: rest)) := by
    rw [heq]; exact takeDigits_append h1d (by decide) _
  simp only [find_numbering_level2, e1, isEmpty_false_of_ne_nil h1ne,
    Bool.false_eq_true, if_false, dotGroups_two_of_twoSeg h2ne h2d]
  rfl

theorem sepWS_append_digits {d2 : List Char} {rest : List Char} (h2ne : d2 ≠ [])
    (h2d : ∀ x ∈ d2, x.isDigit = true) :
    afterNum3.sepWS (d2 ++ ' ' :: rest) = false := by
  cases d2 with
  | nil => exact absurd rfl h2ne
  | cons a as =>
      have := digit_not_ws (h2d a (List.mem_cons_self _ _))
      simp [afterNum3.sepWS, this]

theorem twoSeg_find3 {s : String} (h : twoSegForm s) :
    find_numbering_level3 s = some 2 := by
  obtain ⟨d1, d2, rest, ⟨h1ne, h1d⟩, ⟨h2ne, h2d⟩, heq⟩ := h
  have e1 : takeDigits (trimL s.data) = (d1, '.' :: (d2 ++ ' ' :: rest)) := by
    rw [heq]; exact takeDigits_append h1d (by decide) _
  have e2 : takeDigits (d2 ++ ' ' :: rest) = (d2, ' ' :: rest) :=
    takeDigits_append h2d (by decide) _
  have ea : afterNum3 ('.' :: (d2 ++ ' ' :: rest)) = false := by
    simp only [afterNum3, sepWS_append_digits h2ne h2d]
  have eb : afterNum3 (' ' :: rest) = true := rfl
  simp only [find_numbering_level3, e1, isEmpty_false_of_ne_nil h1ne,
    Bool.false_eq_true, if_false, ea, e2, isEmpty_false_of_ne_nil h2ne, eb, if_true]

theorem elLevel2_eq_some {keys : List ℚ} {tl : List String} {off : ℕ} {sp : Bool}
    {el : TextElement} {lv : Level} {pg : ℕ}
    (h : elLevel2 keys tl off sp el = some (lv, pg)) :
    ∃ c, lv = overrideEQ3 (find_numbering_level2 el.text) (lookupTotal keys c) := by
  unfold elLevel2 at h
  split at h
  · exact absurd h (by simp)
  · split at h
    · exact absurd h (by simp)
    · split at h
      · exact absurd h (by simp)
      · split at h
        · exact absurd h (by simp)
        · split at h
          · exact absurd h (by simp)
          next c hargm =>
            split at h
            · exact absurd h (by simp)
            · split at h
              · exact absurd h (by simp)
              · split at h
                · exact absurd h (by simp)
                · have h2 := Option.some_inj.mp h
                  exact ⟨c, (congrArg Prod.fst h2.symm)⟩

/-- Claim C7: in each of the three Heading Assigners, an emitted entry whose
trimmed text has the form "2.1 Something" (two dot-separated integer
segments then a space) carries level H2, whatever its font size. -/
theorem c7_theorem :
    (∀ (els : List TextElement) (clusters : List ℚ) (tsize : ℚ) (e : Entry),
        e ∈ assign_headings1 els clusters tsize → twoSegForm e.text → e.level = .H2) ∧
    (∀ (els : List TextElement) (clusters : List ℚ) (ts : Option ℚ)
        (tl : List String) (off : ℕ) (sp : Bool) (e : Entry),
        e ∈ assign_headings2 els clusters ts tl off sp → twoSegForm e.text →
          e.level = .H2) ∧
    (∀ (els : List TextElement) (clusters : List ℚ) (ts : ℚ) (e : Entry),
        e ∈ assign_headings3 els clusters ts → twoSegForm e.text → e.level = .H2) := by
  refine ⟨?_, ?_, ?_⟩
  · intro els clusters tsize e hm hform
    rcases assign_headings1_mem hm with ⟨el, -, hproc⟩
    rcases proc1El_eq_some hproc with ⟨htext, -, -, lv0, hlv⟩
    rw [htext] at hform
    rw [hlv, twoSeg_find1 hform]
    rfl
  · intro els clusters ts tl off sp e hm hform
    rcases assign_headings2_mem hm with ⟨el, lv, pg, -, helv, rfl⟩
    rcases elLevel2_eq_some helv with ⟨c, hlv⟩
    simp only at hform
    rw [hlv, twoSeg_find2 hform]
    rfl
  · intro els clusters ts e hm hform
    rcases assign_headings3_mem hm with ⟨el, -, hproc⟩
    rcases proc3El_eq_some hproc with ⟨htext, -, -, c, hlv⟩
    rw [htext] at hform
    rw [hlv, twoSeg_find3 hform]
    rfl

/-- Claim C7, witness: "2.1 Background" carries the H1 cluster size 16 in
`c7els` but is emitted as H2. -/
theorem c7_witness : (Entry.mk .H2 "2.1 Background" 2).level = .H2 :=
  c7_theorem.1 c7els [20, 16] 20 _ (by decide)
    ⟨['2'], ['1'], "Background".data, ⟨by decide, by decide⟩,
      ⟨by decide, by decide⟩, by decide⟩

/-! ## C6 — Numbering Analyzer contract -/

/-- Claim C6, counterexample.  main1's separator is starred, so the bare
digit string "2024" yields depth 1 where the claim demands no signal; main2's
separator class lacks the period, so "1. Introduction" yields no signal where
the claim demands depth 1; main3 accepts no dash separator, so
"1- Background" yields no signal where the claim demands depth 1. -/
theorem c6_counterexample :
    find_numbering_level1 "2024" = some 1 ∧ claimNumbering "2024" = none ∧
    find_numbering_level2 "1. Introduction" = none ∧
      claimNumbering "1. Introduction" = some 1 ∧
    find_numbering_level3 "1- Background" = none ∧
      claimNumbering "1- Background" = some 1 := by decide

theorem dotGroups_fst : ∀ (k : ℕ) (l : List Char),
    (dotGroups k l).1 = min k (dotGroupsAll l) := by
  intro k
  induction k with
  | zero => intro l; simp [dotGroups]
  | succ k ih =>
      intro l
      cases l with
      | nil => simp [dotGroups, dotGroupsAll]
      | cons c0 rest =>
          by_cases hdot : c0 = '.'
          · subst hdot
            cases rest with
            | nil => simp [dotGroups, dotGroupsAll, takeDigits]
            | cons c1 rest2 =>
                by_cases hd : c1.isDigit
                · have ht : takeDigits (c1 :: rest2) =
                      (c1 :: (takeDigits rest2).1, (takeDigits rest2).2) := by
                    simp [takeDigits, hd]
                  have hall : dotGroupsAll ('.' :: c1 :: rest2) =
                      dotGroupsAll (takeDigits (c1 :: rest2)).2 + 1 := by
                    simp [dotGroupsAll, hd]
                  have hne : (takeDigits (c1 :: rest2)).1.isEmpty = false := by
                    rw [ht]; rfl
                  show (if (takeDigits (c1 :: rest2)).1.isEmpty = true
                      then ((0 : ℕ), '.' :: c1 :: rest2)
                      else ((dotGroups k (takeDigits (c1 :: rest2)).2).1 + 1,
                            (dotGroups k (takeDigits (c1 :: rest2)).2).2)).1 =
                    min (k + 1) (dotGroupsAll ('.' :: c1 :: rest2))
                  rw [hne, hall]
                  simp only [Bool.false_eq_true, if_false]
                  have := ih (takeDigits (c1 :: rest2)).2
                  omega
                · have ht : takeDigits (c1 :: rest2) = ([], c1 :: rest2) := by
                    simp [takeDigits, hd]
                  have hall : dotGroupsAll ('.' :: c1 :: rest2) = 0 := by
                    simp [dotGroupsAll, hd]
                  show (if (takeDigits (c1 :: rest2)).1.isEmpty = true
                      then ((0 : ℕ), '.' :: c1 :: rest2)
                      else ((dotGroups k (takeDigits (c1 :: rest2)).2).1 + 1,
                            (dotGroups k (takeDigits (c1 :: rest2)).2).2)).1 =
                    min (k + 1) (dotGroupsAll ('.' :: c1 :: rest2))
                  rw [ht, hall]
                  simp
          · -- head is not a period: no repetition on either side
            have hg0 : dotGroups (k + 1) (c0 :: rest) = (0, c0 :: rest) := by
              unfold dotGroups
              split
              · rename_i heq
                injection heq with h1 h2
                exact absurd h1 hdot
              · rfl
            have hga : dotGroupsAll (c0 :: rest) = 0 := by
              unfold dotGroupsAll
              split
              · rename_i heq
                injection heq with h1 h2
                exact absurd h1 hdot
              · rfl
            rw [hg0, hga]
            simp

/-- Claim C6, amended, for the first iteration (main1): the analyzer returns
a depth equal to the number of leading dot-separated integer segments capped
at 3 exactly when the trimmed text begins with an integer — no trailing
separator is required — and no signal otherwise. -/
theorem c6_amended (s : String) : find_numbering_level1 s = amendedNumbering1 s := by
  unfold find_numbering_level1 amendedNumbering1
  cases he : (takeDigits (trimL s.data)).1.isEmpty with
  | true => simp only [he, if_true]
  | false =>
      simp only [he, Bool.false_eq_true, if_false]
      have hg := dotGroups_fst 2 (takeDigits (trimL s.data)).2
      congr 1
      by_cases h3 : 3 < (dotGroups 2 (takeDigits (trimL s.data)).2).1 + 1
      · rw [if_pos h3]
        omega
      · rw [if_neg h3]
        omega

/-! ## C5 — cluster partition and strict descent -/

theorem buildClustersGo_join_perm (tol : ℚ) :
    ∀ (fuel : ℕ) (l : List ℚ), l.length ≤ fuel →
      ((buildClustersGo tol fuel l).flatten).Perm l := by
  intro fuel
  induction fuel with
  | zero =>
      intro l hl
      rw [List.length_eq_zero.mp (Nat.le_zero.mp hl)]
      rfl
  | succ fuel ih =>
      intro l hl
      cases l with
      | nil => rfl
      | cons base rest =>
          have hlen : (rest.filter (fun s => !decide (qabs (qsub s base) ≤ tol))).length ≤
              fuel := by
            have := List.length_filter_le (fun s => !decide (qabs (qsub s base) ≤ tol)) rest
            simp only [List.length_cons] at hl
            omega
          have hperm := ih _ hlen
          have h1 : (rest.filter (fun s => decide (qabs (qsub s base) ≤ tol)) ++
              (buildClustersGo tol fuel
                (rest.filter (fun s => !decide (qabs (qsub s base) ≤ tol)))).flatten).Perm
              (rest.filter (fun s => decide (qabs (qsub s base) ≤ tol)) ++
                rest.filter (fun s => !decide (qabs (qsub s base) ≤ tol))) :=
            hperm.append_left _
          have h2 := List.filter_append_perm
            (fun s => decide (qabs (qsub s base) ≤ tol)) rest
          show List.Perm (base :: (rest.filter (fun s => decide (qabs (qsub s base) ≤ tol)) ++
            (buildClustersGo tol fuel
              (rest.filter (fun s => !decide (qabs (qsub s base) ≤ tol)))).flatten))
            (base :: rest)
          exact (h1.trans h2).cons base

theorem buildClustersGo_sub (tol : ℚ) {fuel : ℕ} {l : List ℚ} (hl : l.length ≤ fuel)
    {c : List ℚ} (hc : c ∈ buildClustersGo tol fuel l) {x : ℚ} (hx : x ∈ c) : x ∈ l :=
  (buildClustersGo_join_perm tol fuel l hl).mem_iff.mp
    (List.mem_flatten.mpr ⟨c, hc, hx⟩)

theorem buildClustersGo_ne_nil (tol : ℚ) :
    ∀ (fuel : ℕ) (l : List ℚ) (c : List ℚ), c ∈ buildClustersGo tol fuel l → c ≠ [] := by
  intro fuel
  induction fuel with
  | zero =>
      intro l c hc
      cases l with
      | nil => cases hc
      | cons base rest => cases hc
  | succ fuel ih =>
      intro l c hc
      cases l with
      | nil => cases hc
      | cons base rest =>
          rcases List.mem_cons.mp hc with rfl | ht
          · exact List.cons_ne_nil _ _
          · exact ih _ c ht

theorem sum_lt_mul {l : List ℚ} {b : ℚ} (hne : l ≠ []) (h : ∀ x ∈ l, x < b) :
    l.sum < b * l.length := by
  induction l with
  | nil => exact absurd rfl hne
  | cons a rest ih =>
      cases rest with
      | nil =>
          simp only [List.sum_cons, List.sum_nil, add_zero, List.length_cons,
            List.length_nil]
          push_cast
          linarith [h a (List.mem_cons_self a [])]
      | cons a2 rest2 =>
          have h1 := h a (List.mem_cons_self _ _)
          have h2 := ih (List.cons_ne_nil _ _) (fun x hx => h x (List.mem_cons_of_mem _ hx))
          simp only [List.sum_cons, List.length_cons] at h2 ⊢
          push_cast
          push_cast at h2
          linarith

theorem mul_le_sum {l : List ℚ} {b : ℚ} (h : ∀ x ∈ l, b ≤ x) :
    b * l.length ≤ l.sum := by
  induction l with
  | nil => simp
  | cons a rest ih =>
      have h1 := h a (List.mem_cons_self _ _)
      have h2 := ih (fun x hx => h x (List.mem_cons_of_mem _ hx))
      simp only [List.sum_cons, List.length_cons]
      push_cast
      linarith

theorem mean_lt {l : List ℚ} {b : ℚ} (hne : l ≠ []) (h : ∀ x ∈ l, x < b) : mean l < b := by
  have hlen : (0:ℚ) < (l.length : ℚ) := by
    have := List.length_pos.mpr hne
    exact_mod_cast this
  rw [mean_eq, div_lt_iff₀ hlen]
  exact sum_lt_mul hne h

theorem le_mean {l : List ℚ} {b : ℚ} (hne : l ≠ []) (h : ∀ x ∈ l, b ≤ x) : b ≤ mean l := by
  have hlen : (0:ℚ) < (l.length : ℚ) := by
    have := List.length_pos.mpr hne
    exact_mod_cast this
  rw [mean_eq, le_div_iff₀ hlen]
  exact mul_le_sum h

theorem buildClustersGo_means_pairwise (tol : ℚ) (htol : 0 ≤ tol) :
    ∀ (fuel : ℕ) (l : List ℚ), l.length ≤ fuel → l.Pairwise (· > ·) →
      ((buildClustersGo tol fuel l).map mean).Pairwise (· > ·) := by
  intro fuel
  induction fuel with
  | zero =>
      intro l hl _
      rw [List.length_eq_zero.mp (Nat.le_zero.mp hl)]
      exact List.Pairwise.nil
  | succ fuel ih =>
      intro l hl hp
      cases l with
      | nil => exact List.Pairwise.nil
      | cons base rest =>
          have hrest : ∀ x ∈ rest, base > x := (List.pairwise_cons.mp hp).1
          have hptail : rest.Pairwise (· > ·) := (List.pairwise_cons.mp hp).2
          have hlen : (rest.filter (fun s => !decide (qabs (qsub s base) ≤ tol))).length ≤
              fuel := by
            have := List.length_filter_le (fun s => !decide (qabs (qsub s base) ≤ tol)) rest
            simp only [List.length_cons] at hl
            omega
          show ((mean (base :: rest.filter (fun s => decide (qabs (qsub s base) ≤ tol)))) ::
            (buildClustersGo tol fuel
              (rest.filter (fun s => !decide (qabs (qsub s base) ≤ tol)))).map mean).Pairwise
            (· > ·)
          refine List.pairwise_cons.mpr ⟨?_, ih _ hlen (hptail.filter _)⟩
          intro m hm
          rcases List.mem_map.mp hm with ⟨c, hcmem, rfl⟩
          -- every element of a later cluster is below base - tol
          have hbelow : ∀ x ∈ c, x < base - tol := by
            intro x hx
            have hx2 := buildClustersGo_sub tol hlen hcmem hx
            have hx3 := List.mem_filter.mp hx2
            have hxr : x ∈ rest := hx3.1
            have hxq : ¬(qabs (qsub x base) ≤ tol) := by
              have := hx3.2
              simpa using this
            rw [qabs_eq, qsub_eq] at hxq
            have hxb : x < base := hrest x hxr
            have : |x - base| = base - x := by
              rw [abs_sub_comm]
              exact abs_of_pos (by linarith)
            rw [this] at hxq
            linarith [not_le.mp hxq]
          have hmean1 : mean c < base - tol :=
            mean_lt (buildClustersGo_ne_nil tol fuel _ c hcmem) hbelow
          have hmean2 : base - tol ≤
              mean (base :: rest.filter (fun s => decide (qabs (qsub s base) ≤ tol))) := by
            apply le_mean (List.cons_ne_nil _ _)
            intro y hy
            rcases List.mem_cons.mp hy with rfl | hyt
            · linarith
            · have hy2 := List.mem_filter.mp hyt
              have hyq : qabs (qsub y base) ≤ tol := by
                have := hy2.2
                simpa using this
              rw [qabs_eq, qsub_eq] at hyq
              have := abs_le.mp hyq
              linarith [this.1]
          exact lt_of_lt_of_le hmean1 hmean2

theorem sorted_nodup_gt {l : List ℚ} (hs : l.Sorted (· ≥ ·)) (hn : l.Nodup) :
    l.Pairwise (· > ·) :=
  (hs.and hn).imp (fun h => lt_of_le_of_ne h.1 (Ne.symm h.2))

theorem eq_of_mem_pairwise_disjoint {L : List (List ℚ)}
    (hpd : L.Pairwise List.Disjoint) {c1 c2 : List ℚ} {x : ℚ}
    (h1 : c1 ∈ L) (h2 : c2 ∈ L) (hx1 : x ∈ c1) (hx2 : x ∈ c2) : c1 = c2 := by
  induction L with
  | nil => cases h1
  | cons c L ih =>
      rcases List.pairwise_cons.mp hpd with ⟨hdisj, hpd2⟩
      rcases List.mem_cons.mp h1 with rfl | h1t
      · rcases List.mem_cons.mp h2 with rfl | h2t
        · rfl
        · exact ((hdisj c2 h2t) hx1 hx2).elim
      · rcases List.mem_cons.mp h2 with rfl | h2t
        · exact ((hdisj c1 h1t) hx2 hx1).elim
        · exact ih hpd2 h1t h2t

/-- Claim C5: for a non-empty document, every observed (rounded,
deduplicated) font size belongs to exactly one cluster of the decomposition
main1's `cluster_font_sizes` builds, and the returned list of cluster
representatives (the means) is strictly descending. -/
theorem c5_theorem (els : List TextElement) (_hne : els ≠ []) :
    (∀ x ∈ dedupSortDesc (els.map (fun el => roundTo 2 el.font_size)),
      ∃! c, c ∈ buildClusters (qmk 1 2)
          (dedupSortDesc (els.map (fun el => roundTo 2 el.font_size))) ∧ x ∈ c) ∧
    List.Chain' (· > ·) (cluster_font_sizes1 els) := by
  set sizes := dedupSortDesc (els.map (fun el => roundTo 2 el.font_size)) with hsz
  have hnodup : sizes.Nodup :=
    (sortDesc_perm _).symm.nodup (List.nodup_dedup _)
  have hsorted : sizes.Sorted (· ≥ ·) := sortDesc_sorted _
  have hgt : sizes.Pairwise (· > ·) := sorted_nodup_gt hsorted hnodup
  have hperm : ((buildClusters (qmk 1 2) sizes).flatten).Perm sizes :=
    buildClustersGo_join_perm _ _ _ le_rfl
  have hjoinnodup : ((buildClusters (qmk 1 2) sizes).flatten).Nodup :=
    hperm.symm.nodup hnodup
  have hdisj := (List.nodup_flatten.mp hjoinnodup).2
  constructor
  · intro x hx
    have hxj : x ∈ (buildClusters (qmk 1 2) sizes).flatten := hperm.symm.subset hx
    rcases List.mem_flatten.mp hxj with ⟨c, hcmem, hxc⟩
    refine ⟨c, ⟨hcmem, hxc⟩, ?_⟩
    intro c2 hc2
    exact eq_of_mem_pairwise_disjoint hdisj hc2.1 hcmem hc2.2 hxc
  · have htol : (0:ℚ) ≤ qmk 1 2 := by
      rw [qmk, Rat.divInt_eq_div]
      norm_num
    have hpw : ((buildClusters (qmk 1 2) sizes).map mean).Pairwise (· > ·) :=
      buildClustersGo_means_pairwise _ htol _ _ le_rfl hgt
    have hsor : ((buildClusters (qmk 1 2) sizes).map mean).Sorted (· ≥ ·) :=
      hpw.imp (fun h => le_of_lt h)
    have : cluster_font_sizes1 els = (buildClusters (qmk 1 2) sizes).map mean := by
      unfold cluster_font_sizes1
      rw [← hsz]
      exact sortDesc_eq_self hsor
    rw [this]
    exact hpw.chain'

/-- Claim C5, witness: the strict-descent conjunct on the concrete two-size
document. -/
theorem c5_witness : List.Chain' (· > ·) (cluster_font_sizes1 c5els) :=
  (c5_theorem c5els (by decide)).2
